import Mathlib

/-!
# Verification of `realpython-hero-scraper` (`src/main.py`)

Shallow embedding of the scraper in `src/main.py`: the filename sanitizer,
the image-source resolution and extension policy, the downloader, the
per-URL orchestration loop over a persistent store of download records,
and the startup schema initialization.  External collaborators (the
Playwright browser, the aiohttp HTTP client, the filesystem clock) are
modelled as per-attempt oracles supplied in an environment record; the
side effects the program performs are reproduced as an explicit event
trace.
-/

namespace HeroScraper

/-! ## Filename sanitizer (`sanitize_filename`, src/main.py lines 13-22) -/

/-- Character class `[a-zA-Z0-9_-]` of `re.sub(r'[^a-zA-Z0-9_-]', '_', path)`. -/
def isAllowedChar (c : Char) : Bool :=
  ('a' ≤ c && c ≤ 'z') || ('A' ≤ c && c ≤ 'Z') || ('0' ≤ c && c ≤ '9') || c = '_' || c = '-'

/-- `re.sub(r'^https?://[^/]+/', '', url)` on the character list: the anchored
regex matches a literal `http://` or `https://` prefix, then one or more
non-`/` characters (the host), then a `/`; on a match the matched prefix is
removed, otherwise the input is returned unchanged. -/
def stripSchemeHost (l : List Char) : List Char :=
  let tryRest (rest : List Char) : Option (List Char) :=
    let host := rest.takeWhile (· ≠ '/')
    let tail := rest.drop host.length
    if host.length > 0 && tail.length > 0 then some (tail.drop 1) else none
  if ("https://".toList).isPrefixOf l then
    match tryRest (l.drop 8) with
    | some r => r
    | none => l
  else if ("http://".toList).isPrefixOf l then
    match tryRest (l.drop 7) with
    | some r => r
    | none => l
  else l

/-- `path.rstrip('/')`: removes every trailing `'/'`. -/
def rstripSlash (l : List Char) : List Char :=
  (l.reverse.dropWhile (· = '/')).reverse

/-- Python `s.startswith(pre)`. -/
def pyStartsWith (pre s : String) : Bool :=
  pre.toList.isPrefixOf s.toList

/-- Python `s.split(c)` for a one-character separator: the (always nonempty)
list of maximal runs between occurrences of `c`. -/
def pySplit (c : Char) : List Char → List (List Char)
  | [] => [[]]
  | x :: xs =>
    if x = c then [] :: pySplit c xs
    else
      match pySplit c xs with
      | [] => [[x]]
      | g :: gs => (x :: g) :: gs

/-- Lowercasing as used by `file_ext.lower()`.  Python lowercases full
Unicode; restricted to ASCII letters this agrees with it, and no character
outside `A`-`Z` lowercases to any character of the ASCII-only allow-list
entries compared against, so the membership test below is unaffected. -/
def asciiLower (c : Char) : Char :=
  if 'A' ≤ c && c ≤ 'Z' then Char.ofNat (c.toNat + 32) else c

/-- `s.lower()` (see `asciiLower`). -/
def strLower (s : String) : String :=
  String.mk (s.toList.map asciiLower)

/-- `sanitize_filename` from src/main.py: strip `^https?://[^/]+/`, strip all
trailing slashes, replace every character outside `[a-zA-Z0-9_-]` by `'_'`,
keep the first 100 characters. -/
def sanitize_filename (url : String) : String :=
  let path := stripSchemeHost url.toList
  let path := rstripSlash path
  let sanitized := path.map (fun c => if isAllowedChar c then c else '_')
  String.mk (sanitized.take 100)

/-! ## Extension and resolution policy (src/main.py lines 93-116) -/

/-- The suffix of `l` strictly after the last occurrence of `c`
(`l` itself when `c` does not occur). -/
def afterLast (c : Char) (l : List Char) : List Char :=
  (l.reverse.takeWhile (· ≠ c)).reverse

/-- The extension component of `os.path.splitext` (posixpath): the part of the
basename from its last `'.'`, where dots leading the basename do not start an
extension. -/
def splitextExt (p : String) : String :=
  let base := afterLast '/' p.toList
  let stem := base.dropWhile (· = '.')
  if stem.contains '.' then String.mk ('.' :: afterLast '.' stem) else ""

/-- `valid_extensions = [".jpg", ".jpeg", ".png", ".gif", ".webp"]`. -/
def valid_extensions : List String := [".jpg", ".jpeg", ".png", ".gif", ".webp"]

/-- The saved file's extension for a (resolved) image source, src/main.py
lines 104-113: `os.path.splitext(image_src)[1] or ".jpg"`, prepend a dot if
missing, and fall back to `".jpg"` when the lowercase form is not in
`valid_extensions`. -/
def fileExtFor (image_src : String) : String :=
  let file_ext := if splitextExt image_src = "" then ".jpg" else splitextExt image_src
  let file_ext := if pyStartsWith "." file_ext then file_ext else "." ++ file_ext
  if valid_extensions.contains (strLower file_ext) then file_ext else ".jpg"

/-- The extension policy as the spec words it — "derive the file extension
from the resolved image URL's **path**": splitext applied to the URL's path
component (the portion before any query `?` or fragment `#`), with the same
`.jpg` default and allow-list fallback.  To be compared with `fileExtFor`,
which applies splitext to the whole URL string. -/
def fileExtFromPath (image_src : String) : String :=
  let path := String.mk (image_src.toList.takeWhile (fun c => c ≠ '?' && c ≠ '#'))
  let file_ext := if splitextExt path = "" then ".jpg" else splitextExt path
  let file_ext := if pyStartsWith "." file_ext then file_ext else "." ++ file_ext
  if valid_extensions.contains (strLower file_ext) then file_ext else ".jpg"

/-- Src resolution, src/main.py lines 94-100: a source starting with `//` gets
`url.split(':')[0] + ":"` prepended; one starting with a single `/` gets
`"/".join(url.split('/')[:3])` prepended; anything else is kept. -/
def resolveSrc (url image_src : String) : String :=
  if pyStartsWith "/" image_src then
    if pyStartsWith "//" image_src then
      String.mk ((pySplit ':' url.toList).headD []) ++ ":" ++ image_src
    else
      String.mk (List.intercalate ['/'] ((pySplit '/' url.toList).take 3)) ++ image_src
  else image_src

/-! ## Persistent store (table `downloaded_images`) -/

/-- One row of `downloaded_images` (the surrogate `id` column plays no role in
the behavior and is omitted).  `successful_download` is the stored `0`/`1`
integer. -/
structure DownloadRecord where
  url : String
  successful_download : Nat
  try_download_datetime : String
  successful_download_datetime : Option String
deriving Repr, DecidableEq

/-- The table, as its list of rows in insertion order. -/
abbrev Store := List DownloadRecord

/-- `SELECT ... FROM downloaded_images WHERE url = ?` with `fetchone()`. -/
def Store.get (s : Store) (u : String) : Option DownloadRecord :=
  s.find? (fun r => r.url = u)

/-- `SELECT successful_download FROM downloaded_images WHERE url = ?`
(src/main.py line 55): the stored flag, or `none` when no row exists. -/
def selectSuccessful (s : Store) (u : String) : Option Nat :=
  (Store.get s u).map (·.successful_download)

/-- `UPDATE downloaded_images SET successful_download = ?,
try_download_datetime = ?, successful_download_datetime = ? WHERE url = ?`
(src/main.py lines 145-149): rewrites the three columns of every row whose
`url` matches, in place. -/
def storeUpdate (s : Store) (u : String) (succ : Nat) (t : String)
    (st : Option String) : Store :=
  s.map (fun r =>
    if r.url = u then
      { r with successful_download := succ, try_download_datetime := t,
               successful_download_datetime := st }
    else r)

/-! ## Observable effects

Each side-effecting call of the per-URL loop is recorded as one event.  The
read-only `SELECT` that decides skip/attempt is modelled by `selectSuccessful`
and produces no event; `print` calls other than the persistence-error report
are not modelled. -/

/-- The side effects of one run, in order. -/
inductive Event where
  /-- `page.goto(url, ...)` -/
  | render (url : String)
  /-- `page.locator('meta[property="og:image"]').first.get_attribute("content")` -/
  | metaLookup (url : String)
  /-- `page.locator("figure img").first.get_attribute("src")` -/
  | figLookup (url : String)
  /-- `session.get(image_src)` -/
  | fetch (imageUrl : String)
  /-- `aiofiles.open(filepath, mode='wb')` (creates/truncates the file) -/
  | fileOpen (path : String)
  /-- `f.write(...)` -/
  | fileWrite (path : String)
  /-- a committed `INSERT INTO downloaded_images ...` of this row -/
  | dbInsert (r : DownloadRecord)
  /-- a committed `UPDATE downloaded_images ... WHERE url = ?` -/
  | dbUpdate (url : String) (succ : Nat) (tryT : String) (succT : Option String)
  /-- `conn.rollback()` after a failed persist -/
  | rollback (url : String)
  /-- the `"Error saving download status to database"` report -/
  | logDbError (url : String)
deriving Repr, DecidableEq

/-! ## Collaborator oracles

The browser, HTTP client, filesystem and clock are external collaborators
(spec section 6); one attempt's interactions with them are fixed by an
`AttemptEnv`. -/

/-- Outcomes the collaborators would give for one URL's attempt.
`fetchResult` is `Except.error ()` for a transport error (`aiohttp.ClientError`
before a response is available) and `Except.ok status` for a response with
that HTTP status. -/
structure AttemptEnv where
  /-- `page.goto` succeeds (otherwise it raises, caught at line 129) -/
  gotoOk : Bool
  /-- result of the `og:image` `content` attribute lookup -/
  ogImage : Option String
  /-- result of the `figure img` `src` attribute lookup -/
  figSrc : Option String
  fetchResult : Except Unit Nat
  /-- the body write succeeds (otherwise `IOError`, caught at line 36) -/
  writeOk : Bool
  /-- first `datetime.now(utc).isoformat()`, taken at line 69 -/
  tryTime : String
  /-- second `datetime.now(utc).isoformat()`, taken at line 121 on success -/
  succTime : String
  /-- the `INSERT`/`UPDATE`+`commit` of lines 137-152 succeeds
  (otherwise `sqlite3.Error`, caught at line 153) -/
  persistOk : Bool

/-- `pat` occurs as a contiguous substring (Python's `in` on strings). -/
def listContainsSub (pat : List Char) : List Char → Bool
  | [] => pat.isEmpty
  | x :: xs => pat.isPrefixOf (x :: xs) || listContainsSub pat xs

/-- `"/videos/" in url`. -/
def isVideoUrl (url : String) : Bool :=
  listContainsSub ("/videos/".toList) url.toList

/-- Python falsiness of an optional string (`if not image_src:`):
absent or empty. -/
def falsy : Option String → Bool
  | none => true
  | some s => s.isEmpty

/-- `download_image` (src/main.py lines 24-38): issue the GET; a transport
error, or a bad status making `response.raise_for_status()` raise, yields
`False` before the destination file is touched; otherwise open/truncate the
file and write the body, an `IOError` during the write yielding `False`.
aiohttp's `raise_for_status` raises exactly for a status of 400 or higher,
so a response with any status below 400 (including a 300 or 304 delivered
as the final response) proceeds to the file write. -/
def download_image (env : AttemptEnv) (imageUrl filepath : String) :
    Bool × List Event :=
  match env.fetchResult with
  | .error _ => (false, [Event.fetch imageUrl])
  | .ok status =>
    if 400 ≤ status then (false, [Event.fetch imageUrl])
    else
      if env.writeOk then
        (true, [Event.fetch imageUrl, Event.fileOpen filepath, Event.fileWrite filepath])
      else
        (false, [Event.fetch imageUrl, Event.fileOpen filepath])

/-- The locator (src/main.py lines 72-88): navigate; on a `/videos/` URL read
the `og:image` `content` attribute first and, only when that is falsy, fall
through to the `figure img` `src` lookup; on other URLs only the `figure img`
lookup runs.  A navigation error is caught and leaves no source.  Returns
the final `image_src` and the trace. -/
def attemptLocate (url : String) (env : AttemptEnv) : Option String × List Event :=
  if env.gotoOk then
    let (src1, ev1) :=
      if isVideoUrl url then (env.ogImage, [Event.metaLookup url]) else (none, [])
    let (src2, ev2) :=
      if falsy src1 then (env.figSrc, ev1 ++ [Event.figLookup url]) else (src1, ev1)
    (src2, Event.render url :: ev2)
  else (none, [Event.render url])

/-- One attempt (the `try` block, src/main.py lines 71-134): locate a source;
when one is found and truthy, resolve it, build
`images/{sanitize_filename(url)}{ext}` and download.  Returns
`download_successful`, `successful_download_time` and the trace. -/
def attemptDownload (url : String) (env : AttemptEnv) :
    Bool × Option String × List Event :=
  let (srcOpt, evs) := attemptLocate url env
  match srcOpt with
  | some src =>
    if src.isEmpty then (false, none, evs)
    else
      let resolved := resolveSrc url src
      let filepath := "images/" ++ sanitize_filename url ++ fileExtFor resolved
      let (ok, dlEvs) := download_image env resolved filepath
      (ok, if ok then some env.succTime else none, evs ++ dlEvs)
  | none => (false, none, evs)

/-- The row the database write of one attempt carries (src/main.py
lines 138-150). -/
def attemptRecord (url : String) (env : AttemptEnv) : DownloadRecord :=
  let (ds, succTime, _) := attemptDownload url env
  ⟨url, if ds then 1 else 0, env.tryTime, succTime⟩

/-- One iteration of the loop (src/main.py lines 51-155): skip when a row
exists with `successful_download = 1`; otherwise attempt, then `INSERT` (no
prior row) or `UPDATE` (prior row) and commit, rolling back on a
`sqlite3.Error`. -/
def processUrl (env : AttemptEnv) (store : Store) (url : String) :
    Store × List Event :=
  let result := selectSuccessful store url
  if result = some 1 then (store, [])
  else
    let (_, _, evs) := attemptDownload url env
    let r := attemptRecord url env
    if env.persistOk then
      match result with
      | none => (store ++ [r], evs ++ [Event.dbInsert r])
      | some _ =>
        (storeUpdate store url r.successful_download r.try_download_datetime
           r.successful_download_datetime,
         evs ++ [Event.dbUpdate url r.successful_download r.try_download_datetime
           r.successful_download_datetime])
    else (store, evs ++ [Event.logDbError url, Event.rollback url])

/-- The whole loop: URLs in list order, each paired with its collaborators'
outcomes, threading the store. -/
def processUrls : List (String × AttemptEnv) → Store → Store × List Event
  | [], s => (s, [])
  | (u, env) :: rest, s =>
    let (s1, e1) := processUrl env s u
    let (s2, e2) := processUrls rest s1
    (s2, e1 ++ e2)

/-- An event is one of the two store writes (the "upsert" of the spec). -/
def isUpsertEvent : Event → Bool
  | .dbInsert _ => true
  | .dbUpdate _ _ _ _ => true
  | _ => false

/-! ## Startup schema initialization (`main`, src/main.py lines 160-203) -/

/-- Kinds of `sqlite3` errors relevant to the startup block: the
`OperationalError` raised for a duplicate column, any other
`OperationalError`, and a `sqlite3.Error` outside the operational class. -/
inductive DbErr where
  | duplicateColumn
  | otherOperational
  | nonOperational
deriving Repr, DecidableEq

/-- Whether the error is a `sqlite3.OperationalError` (the class the inner
`except` clauses at lines 182/189/194 catch). -/
def DbErr.isOperational : DbErr → Bool
  | .duplicateColumn => true
  | .otherOperational => true
  | .nonOperational => false

/-- Outcomes the sqlite collaborator would give for each statement of the
startup block (`none` = the statement succeeds). -/
structure StartupEnv where
  /-- `CREATE TABLE IF NOT EXISTS ...` (line 169) -/
  createResult : Option DbErr
  /-- `ALTER TABLE ... ADD COLUMN successful_download ...` (line 180) -/
  alter1 : Option DbErr
  /-- `ALTER TABLE ... ADD COLUMN try_download_datetime ...` (line 185) -/
  alter2 : Option DbErr
  /-- `UPDATE downloaded_images SET try_download_datetime = ...` (line 187) -/
  updateLegacy : Option DbErr
  /-- `ALTER TABLE ... ADD COLUMN successful_download_datetime` (line 192) -/
  alter3 : Option DbErr
  /-- `conn.commit()` (line 197) -/
  commitResult : Option DbErr
deriving Repr, DecidableEq

/-- A `try: stmt except sqlite3.OperationalError: pass` block: an operational
error is swallowed, any other error propagates. -/
def catchOperational (r : Option DbErr) : Option DbErr :=
  match r with
  | some e => if e.isOperational then none else some e
  | none => none

/-- The second `try` block (lines 184-190): the `ALTER` and — only when it
succeeded — the legacy-row `UPDATE`, both under one
`except sqlite3.OperationalError: pass`. -/
def alterBlock2 (alter updateLegacy : Option DbErr) : Option DbErr :=
  match alter with
  | some e => if e.isOperational then none else some e
  | none => catchOperational updateLegacy

/-- The startup block of `main` (lines 166-198): `CREATE TABLE`, then the
three `ALTER TABLE` additions each wrapped in
`except sqlite3.OperationalError: pass` (the second block also runs the
legacy-row `UPDATE`, still under the same `except`), then `commit`.  Returns
the `sqlite3.Error` reaching the outer handler at line 199, or `none` when
initialization succeeds. -/
def schemaInit (env : StartupEnv) : Option DbErr :=
  match env.createResult with
  | some e => some e
  | none =>
    match catchOperational env.alter1 with
    | some e => some e
    | none =>
      match alterBlock2 env.alter2 env.updateLegacy with
      | some e => some e
      | none =>
        match catchOperational env.alter3 with
        | some e => some e
        | none => env.commitResult

/-- `main` (lines 160-221): initialize the schema; a `sqlite3.Error` there
returns at line 203 before any URL is processed, otherwise the URL loop runs. -/
def mainRun (senv : StartupEnv) (urls : List (String × AttemptEnv)) (s : Store) :
    Store × List Event :=
  match schemaInit senv with
  | some _ => (s, [])
  | none => processUrls urls s

/-- The statement result is absent or an error of the operational class. -/
def opIgnorable (r : Option DbErr) : Prop :=
  ∀ e, r = some e → e.isOperational = true

/-! ## Predicates used by the stated properties -/

/-- The record-level invariant of spec section 3: the success timestamp is
present exactly when the flag is `1`, and then not below the attempt
timestamp. -/
def recordInvariant (succ : Nat) (tryT : String) (succT : Option String) : Prop :=
  (succT.isSome ↔ succ = 1) ∧ ∀ t, succT = some t → tryT ≤ t

/-- Every store-writing event carries fields satisfying `recordInvariant`. -/
def eventWriteOk : Event → Prop
  | .dbInsert r =>
    recordInvariant r.successful_download r.try_download_datetime
      r.successful_download_datetime
  | .dbUpdate _ succ tryT succT => recordInvariant succ tryT succT
  | _ => True

/-- The scheme of a URL as the spec reads `url.split(':')[0]`: the prefix
before the first `':'`. -/
def schemeOf (url : String) : String :=
  String.mk (url.toList.takeWhile (· ≠ ':'))

/-! ## Reference sanitizers (spec section 4.1)

`sanitizeRef` transcribes the spec's sanitizer description literally;
`sanitizeRefAmended` is the corrected description. -/

/-- The remainder after the first occurrence of `pat` (`none` when `pat` does
not occur). -/
def afterFirstSub (pat : List Char) : List Char → Option (List Char)
  | [] => if pat.isEmpty then some [] else none
  | x :: xs =>
    if pat.isPrefixOf (x :: xs) then some ((x :: xs).drop pat.length)
    else afterFirstSub pat xs

/-- The sanitizer exactly as the spec words it: strip everything through the
first `/` after `://`, strip a single trailing `/`, replace every character
outside `[A-Za-z0-9_-]` with `_`, truncate to 100 characters.  (When `://`
or the `/` after it is absent there is nothing to strip through and the
input is kept.) -/
def sanitizeRef (url : String) : String :=
  let l := url.toList
  let path :=
    match afterFirstSub ("://".toList) l with
    | some rest =>
      match afterFirstSub ['/'] rest with
      | some r => r
      | none => l
    | none => l
  let path := if path.getLast? = some '/' then path.dropLast else path
  let sanitized := path.map (fun c => if isAllowedChar c then c else '_')
  String.mk (sanitized.take 100)

/-- The corrected reference sanitizer: strip the scheme and host only when
the URL begins with `http://` or `https://` followed by at least one
non-`/` character and then a `/` (removing everything through that `/`),
strip **all** trailing `/` characters, replace every character outside
`[A-Za-z0-9_-]` with `_`, truncate to 100 characters. -/
def sanitizeRefAmended (url : String) : String :=
  let l := url.toList
  let schemeLen : Option Nat :=
    if ("https://".toList).isPrefixOf l then some 8
    else if ("http://".toList).isPrefixOf l then some 7
    else none
  let path :=
    match schemeLen with
    | some n =>
      let (host, tail) := (l.drop n).span (· ≠ '/')
      match host, tail with
      | _ :: _, _ :: rest => rest
      | _, _ => l
    | none => l
  let trailing := (path.reverse.takeWhile (· = '/')).length
  let path := path.take (path.length - trailing)
  let sanitized := path.map (fun c => if isAllowedChar c then c else '_')
  String.mk (sanitized.take 100)

end HeroScraper



namespace HeroScraper

/-! ## Helper lemmas -/

theorem drop_length_takeWhile (p : α → Bool) (l : List α) :
    l.drop (l.takeWhile p).length = l.dropWhile p := by
  induction l with
  | nil => rfl
  | cons x xs ih =>
    by_cases h : p x
    · simp [List.takeWhile_cons_of_pos h, List.dropWhile_cons_of_pos h, ih]
    · simp [List.takeWhile_cons_of_neg h, List.dropWhile_cons_of_neg h]

theorem reverse_dropWhile_reverse (p : α → Bool) (l : List α) :
    (l.reverse.dropWhile p).reverse =
      l.take (l.length - (l.reverse.takeWhile p).length) := by
  rw [← drop_length_takeWhile p l.reverse, List.reverse_drop, List.reverse_reverse,
    List.length_reverse]

theorem pySplit_ne_nil (c : Char) (l : List Char) : pySplit c l ≠ [] := by
  induction l with
  | nil => simp [pySplit]
  | cons x xs ih =>
    by_cases h : x = c
    · simp [pySplit, h]
    · simp only [pySplit, if_neg h]
      cases hs : pySplit c xs with
      | nil => simp
      | cons g gs => simp

theorem pySplit_headD (c : Char) (l : List Char) :
    (pySplit c l).headD [] = l.takeWhile (· ≠ c) := by
  induction l with
  | nil => rfl
  | cons x xs ih =>
    by_cases h : x = c
    · simp [pySplit, h]
    · simp only [pySplit, if_neg h]
      cases hs : pySplit c xs with
      | nil => exact absurd hs (pySplit_ne_nil c xs)
      | cons g gs =>
        rw [hs] at ih
        simp only [List.headD] at ih ⊢
        simp only [ne_eq, decide_not] at ih ⊢
        simp [List.takeWhile_cons, h, ← ih]

end HeroScraper

namespace HeroScraper

theorem stripSchemeHost_cases (l : List Char) :
    stripSchemeHost l =
      match (if ("https://".toList).isPrefixOf l then some 8
             else if ("http://".toList).isPrefixOf l then some 7
             else none : Option Nat) with
      | some n =>
        match ((l.drop n).span (· ≠ '/')).1, ((l.drop n).span (· ≠ '/')).2 with
        | _ :: _, _ :: rest => rest
        | _, _ => l
      | none => l := by
  simp only [stripSchemeHost, List.span_eq_take_drop, drop_length_takeWhile]
  cases h1 : ("https://".toList).isPrefixOf l
  · cases h2 : ("http://".toList).isPrefixOf l
    · simp
    · simp only [Bool.false_eq_true, if_false, if_true]
      cases hh : (l.drop 7).takeWhile (· ≠ '/') <;>
        cases ht : (l.drop 7).dropWhile (· ≠ '/') <;> simp [hh, ht]
  · simp only [if_true]
    cases hh : (l.drop 8).takeWhile (· ≠ '/') <;>
      cases ht : (l.drop 8).dropWhile (· ≠ '/') <;> simp [hh, ht]

/-- C7: `sanitize_filename` is total (a Lean function), and for every input
returns a string of length at most 100 all of whose characters lie in
`[A-Za-z0-9_-]`. -/
theorem sanitize_total_bounded (u : String) :
    (sanitize_filename u).length ≤ 100 ∧
    ∀ c ∈ (sanitize_filename u).toList, isAllowedChar c = true := by
  have hrepr : sanitize_filename u =
      String.mk (((rstripSlash (stripSchemeHost u.toList)).map
        (fun c => if isAllowedChar c then c else '_')).take 100) := rfl
  rw [hrepr]
  constructor
  · simp [String.length, List.length_take]
  · intro c hc
    simp only [String.toList] at hc
    have hc' := List.mem_of_mem_take hc
    rcases List.mem_map.mp hc' with ⟨a, -, rfl⟩
    by_cases h : isAllowedChar a = true
    · simp [h]
    · simp only [h, if_false, Bool.false_eq_true]
      decide

/-- C7 witness: evaluation at a concrete URL. -/
theorem sanitize_total_bounded_witness :
    (sanitize_filename "https://realpython.com/python-metaclasses/").length ≤ 100 ∧
    ∀ c ∈ (sanitize_filename "https://realpython.com/python-metaclasses/").toList,
      isAllowedChar c = true :=
  sanitize_total_bounded "https://realpython.com/python-metaclasses/"

/-- C6 counterexample: `sanitize_filename` differs from the spec's reference
sanitizer.  On `"https://host/a//"` the code strips both trailing slashes
(`"a"`) while the reference strips a single one (`"a_"`); on
`"ftp://host/path"` the code strips nothing (its regex only matches `http`/
`https` schemes) while the reference strips through the first `/` after
`://`. -/
theorem sanitize_ref_counterexample :
    sanitize_filename "https://host/a//" ≠ sanitizeRef "https://host/a//" ∧
    sanitize_filename "ftp://host/path" ≠ sanitizeRef "ftp://host/path" := by
  decide

/-- C6 (amended): `sanitize_filename` equals the reference function that
strips the scheme and host only when the URL begins with `http://` or
`https://` followed by a nonempty host and a `/`, strips all trailing `/`
characters, replaces every character outside `[A-Za-z0-9_-]` with `_`, and
truncates to 100 characters. -/
theorem sanitize_eq_amended_reference (u : String) :
    sanitize_filename u = sanitizeRefAmended u := by
  unfold sanitize_filename sanitizeRefAmended
  rw [stripSchemeHost_cases]
  simp only [rstripSlash, reverse_dropWhile_reverse]

end HeroScraper

namespace HeroScraper

theorem attemptRecord_fields (u : String) (env : AttemptEnv) :
    attemptRecord u env =
      ⟨u, if (attemptDownload u env).1 then 1 else 0, env.tryTime,
        (attemptDownload u env).2.1⟩ := by
  rcases h : attemptDownload u env with ⟨ds, stt, evs⟩
  simp [attemptRecord, h]

theorem attemptDownload_succTime (u : String) (env : AttemptEnv) :
    (attemptDownload u env).2.1 =
      if (attemptDownload u env).1 = true then some env.succTime else none := by
  rcases hloc : attemptLocate u env with ⟨srcOpt, evs⟩
  cases srcOpt with
  | none => simp [attemptDownload, hloc]
  | some src =>
    by_cases hsrc : src.isEmpty = true
    · simp [attemptDownload, hloc, hsrc]
    · rcases hdl : download_image env (resolveSrc u src)
        ("images/" ++ sanitize_filename u ++ fileExtFor (resolveSrc u src)) with ⟨ok, dle⟩
      simp [attemptDownload, hloc, hsrc, hdl]

theorem attemptDownload_false_of_falsy (u : String) (env : AttemptEnv)
    (h : falsy (attemptLocate u env).1 = true) :
    (attemptDownload u env).1 = false := by
  rcases hloc : attemptLocate u env with ⟨srcOpt, evs⟩
  rw [hloc] at h
  cases srcOpt with
  | none => simp [attemptDownload, hloc]
  | some src =>
    have hsrc : src.isEmpty = true := by simpa [falsy] using h
    simp [attemptDownload, hloc, hsrc]

theorem locate_events_not_upsert (u : String) (env : AttemptEnv) :
    ∀ e ∈ (attemptLocate u env).2, isUpsertEvent e = false := by
  unfold attemptLocate
  cases hg : env.gotoOk
  · intro e he
    simp at he
    subst he
    rfl
  · cases hv : isVideoUrl u
    · intro e he
      simp [hv, falsy] at he
      rcases he with rfl | rfl <;> rfl
    · cases hfo : falsy env.ogImage
      · intro e he
        simp [hv, hfo] at he
        rcases he with rfl | rfl <;> rfl
      · intro e he
        simp [hv, hfo] at he
        rcases he with rfl | rfl | rfl <;> rfl

theorem download_events_not_upsert (env : AttemptEnv) (iu fp : String) :
    ∀ e ∈ (download_image env iu fp).2, isUpsertEvent e = false := by
  unfold download_image
  cases hr : env.fetchResult with
  | error t =>
    intro e he
    simp at he
    subst he
    rfl
  | ok st =>
    by_cases hs : 400 ≤ st
    · intro e he
      simp [hs] at he
      subst he
      rfl
    · cases hw : env.writeOk
      · intro e he
        simp [hs, hw] at he
        rcases he with rfl | rfl <;> rfl
      · intro e he
        simp [hs, hw] at he
        rcases he with rfl | rfl | rfl <;> rfl

theorem attempt_events_not_upsert (u : String) (env : AttemptEnv) :
    ∀ e ∈ (attemptDownload u env).2.2, isUpsertEvent e = false := by
  intro e he
  rcases hloc : attemptLocate u env with ⟨srcOpt, evs⟩
  have hevs : ∀ x ∈ evs, isUpsertEvent x = false := by
    intro x hx
    exact locate_events_not_upsert u env x (by rw [hloc]; exact hx)
  simp only [attemptDownload, hloc] at he
  cases srcOpt with
  | none => exact hevs e (by simpa using he)
  | some src =>
    by_cases hsrc : src.isEmpty = true
    · simp [hsrc] at he
      exact hevs e he
    · rcases hdl : download_image env (resolveSrc u src)
        ("images/" ++ sanitize_filename u ++ fileExtFor (resolveSrc u src)) with ⟨ok, dle⟩
      simp [hsrc, hdl] at he
      rcases he with h | h
      · exact hevs e h
      · have hd := download_events_not_upsert env (resolveSrc u src)
          ("images/" ++ sanitize_filename u ++ fileExtFor (resolveSrc u src))
        rw [hdl] at hd
        exact hd e h

end HeroScraper

namespace HeroScraper

theorem processUrl_skip (env : AttemptEnv) (s : Store) (u : String)
    (h : selectSuccessful s u = some 1) : processUrl env s u = (s, []) := by
  simp [processUrl, h]

theorem processUrl_eq_insert (env : AttemptEnv) (s : Store) (u : String)
    (h : selectSuccessful s u = none) (hok : env.persistOk = true) :
    processUrl env s u =
      (s ++ [attemptRecord u env],
        (attemptDownload u env).2.2 ++ [Event.dbInsert (attemptRecord u env)]) := by
  rcases hd : attemptDownload u env with ⟨ds, stt, evs⟩
  simp [processUrl, h, hok, hd]

theorem processUrl_eq_update (env : AttemptEnv) (s : Store) (u : String) (n : Nat)
    (h : selectSuccessful s u = some n) (hn : ¬ n = 1) (hok : env.persistOk = true) :
    processUrl env s u =
      (storeUpdate s u (attemptRecord u env).successful_download
         (attemptRecord u env).try_download_datetime
         (attemptRecord u env).successful_download_datetime,
       (attemptDownload u env).2.2 ++
         [Event.dbUpdate u (attemptRecord u env).successful_download
            (attemptRecord u env).try_download_datetime
            (attemptRecord u env).successful_download_datetime]) := by
  rcases hd : attemptDownload u env with ⟨ds, stt, evs⟩
  simp [processUrl, h, hok, hd, hn]

theorem processUrl_eq_rollback (env : AttemptEnv) (s : Store) (u : String)
    (h : ¬ selectSuccessful s u = some 1) (hfail : env.persistOk = false) :
    processUrl env s u =
      (s, (attemptDownload u env).2.2 ++ [Event.logDbError u, Event.rollback u]) := by
  rcases hd : attemptDownload u env with ⟨ds, stt, evs⟩
  simp [processUrl, h, hfail, hd]

theorem get_storeUpdate_self (s : Store) (u : String) (succ : Nat) (t : String)
    (st : Option String) :
    Store.get (storeUpdate s u succ t st) u =
      (Store.get s u).map (fun r => ⟨r.url, succ, t, st⟩) := by
  induction s with
  | nil => rfl
  | cons r rs ih =>
    simp only [storeUpdate, List.map_cons] at *
    by_cases hr : r.url = u
    · rw [if_pos hr]
      unfold Store.get
      rw [List.find?_cons_of_pos _ (by simpa using hr),
        List.find?_cons_of_pos _ (by simpa using hr)]
      simp
    · rw [if_neg hr]
      unfold Store.get
      rw [List.find?_cons_of_neg _ (by simpa using hr),
        List.find?_cons_of_neg _ (by simpa using hr)]
      exact ih

theorem get_append_single (s : Store) (u : String) (r : DownloadRecord)
    (h : Store.get s u = none) (hr : r.url = u) :
    Store.get (s ++ [r]) u = some r := by
  unfold Store.get at *
  rw [List.find?_append, h]
  simp [hr]

theorem processUrl_get (env : AttemptEnv) (s : Store) (u : String)
    (hres : selectSuccessful s u = none ∨
      ∃ n, selectSuccessful s u = some n ∧ ¬ n = 1)
    (hok : env.persistOk = true) :
    Store.get (processUrl env s u).1 u = some (attemptRecord u env) := by
  have hurl : (attemptRecord u env).url = u := by rw [attemptRecord_fields]
  rcases hres with h | ⟨n, h, hn⟩
  · rw [processUrl_eq_insert env s u h hok]
    exact get_append_single s u _ (Option.map_eq_none'.mp h) hurl
  · rw [processUrl_eq_update env s u n h hn hok]
    simp only [get_storeUpdate_self]
    rcases Option.map_eq_some'.mp h with ⟨r0, hr0, -⟩
    rw [hr0]
    have hr0u : r0.url = u := by
      have := List.find?_some hr0
      simpa using this
    have hrec : (⟨u, (attemptRecord u env).successful_download,
        (attemptRecord u env).try_download_datetime,
        (attemptRecord u env).successful_download_datetime⟩ : DownloadRecord) =
        attemptRecord u env := by
      rw [attemptRecord_fields]
    rw [Option.map_some']
    rw [hr0u, hrec]

end HeroScraper

namespace HeroScraper

theorem eventWriteOk_of_not_upsert (e : Event) (h : isUpsertEvent e = false) :
    eventWriteOk e := by
  cases e <;> simp [eventWriteOk] <;> simp [isUpsertEvent] at h

theorem countP_upsert_trace (evs : List Event)
    (h : ∀ e ∈ evs, isUpsertEvent e = false) (ev : Event)
    (hev : isUpsertEvent ev = true) :
    (evs ++ [ev]).countP isUpsertEvent = 1 := by
  rw [List.countP_append]
  have h0 : evs.countP isUpsertEvent = 0 :=
    List.countP_eq_zero.mpr (by intro a ha; simp [h a ha])
  rw [h0]
  simp [List.countP_cons, hev]

theorem attemptRecord_invariant (u : String) (env : AttemptEnv)
    (hmono : env.tryTime ≤ env.succTime) :
    recordInvariant (attemptRecord u env).successful_download
      (attemptRecord u env).try_download_datetime
      (attemptRecord u env).successful_download_datetime := by
  rw [attemptRecord_fields]
  have hst := attemptDownload_succTime u env
  unfold recordInvariant
  cases hds : (attemptDownload u env).1 <;> rw [hds] at hst <;>
    simp only [reduceIte, Bool.false_eq_true] at hst <;> rw [hst]
  · simp
  · refine ⟨by simp, ?_⟩
    intro t ht
    injection ht with h2
    rw [← h2]
    exact hmono

theorem splitextExt_shape (p : String) :
    splitextExt p = "" ∨ pyStartsWith "." (splitextExt p) = true := by
  simp only [splitextExt]
  split
  · right
    unfold pyStartsWith
    simp [List.isPrefixOf]
  · left
    rfl

theorem pyStartsWith_slash (src : String) (h : pyStartsWith "//" src = true) :
    pyStartsWith "/" src = true := by
  unfold pyStartsWith at h ⊢
  rw [List.isPrefixOf_iff_prefix] at h ⊢
  exact List.IsPrefix.trans ⟨['/'], rfl⟩ h

end HeroScraper

namespace HeroScraper

/-- C1: for a URL whose persisted record has `successful_download = 1` when
its iteration starts, the iteration performs no page render, no HTTP fetch,
no file open or write, and no insert or update — its event trace is empty —
and it returns the store unchanged, so the URL's record is unchanged after
the run. -/
theorem successful_url_iteration_is_noop (env : AttemptEnv) (s : Store)
    (u : String) (h : selectSuccessful s u = some 1) :
    processUrl env s u = (s, []) :=
  processUrl_skip env s u h

/-- C1 witness: a concrete store with a successful record. -/
theorem successful_url_iteration_is_noop_witness :
    processUrl ⟨true, none, some "https://x/a.png", .ok 200, true, "T1", "T1", true⟩
        [⟨"https://a/b", 1, "T0", some "T0"⟩] "https://a/b" =
      ([⟨"https://a/b", 1, "T0", some "T0"⟩], []) :=
  successful_url_iteration_is_noop _ _ _ (by decide)

/-- C2: for a URL with no persisted record or one with
`successful_download = 0`, an iteration whose persist succeeds performs
exactly one upsert — an insert when no record existed, otherwise an in-place
update of the same row — whose row has `try_download_datetime` equal to the
attempt's timestamp and `successful_download = 1` exactly when the image was
located and saved without error. -/
theorem pending_url_upserts_exactly_once (env : AttemptEnv) (s : Store)
    (u : String)
    (hres : selectSuccessful s u = none ∨ selectSuccessful s u = some 0)
    (hok : env.persistOk = true) :
    (processUrl env s u).2.countP isUpsertEvent = 1 ∧
    Store.get (processUrl env s u).1 u = some (attemptRecord u env) ∧
    (attemptRecord u env).try_download_datetime = env.tryTime ∧
    ((attemptRecord u env).successful_download = 1 ↔
      (attemptDownload u env).1 = true) ∧
    (selectSuccessful s u = none →
      processUrl env s u =
        (s ++ [attemptRecord u env],
          (attemptDownload u env).2.2 ++ [Event.dbInsert (attemptRecord u env)])) ∧
    (selectSuccessful s u = some 0 →
      processUrl env s u =
        (storeUpdate s u (attemptRecord u env).successful_download
           (attemptRecord u env).try_download_datetime
           (attemptRecord u env).successful_download_datetime,
         (attemptDownload u env).2.2 ++
           [Event.dbUpdate u (attemptRecord u env).successful_download
              (attemptRecord u env).try_download_datetime
              (attemptRecord u env).successful_download_datetime])) := by
  have hcount : (processUrl env s u).2.countP isUpsertEvent = 1 := by
    rcases hres with h | h
    · rw [processUrl_eq_insert env s u h hok]
      exact countP_upsert_trace _ (attempt_events_not_upsert u env) _ rfl
    · rw [processUrl_eq_update env s u 0 h (by decide) hok]
      exact countP_upsert_trace _ (attempt_events_not_upsert u env) _ rfl
  have hget : Store.get (processUrl env s u).1 u = some (attemptRecord u env) := by
    apply processUrl_get env s u _ hok
    rcases hres with h | h
    · exact Or.inl h
    · exact Or.inr ⟨0, h, by decide⟩
  refine ⟨hcount, hget, ?_, ?_, ?_, ?_⟩
  · rw [attemptRecord_fields]
  · rw [attemptRecord_fields]
    cases hds : (attemptDownload u env).1 <;> simp [hds]
  · intro h
    exact processUrl_eq_insert env s u h hok
  · intro h
    exact processUrl_eq_update env s u 0 h (by decide) hok

/-- C2 witness: a fresh URL, hypotheses discharged concretely. -/
theorem pending_url_upserts_exactly_once_witness :
    (processUrl ⟨true, none, some "https://x/a.png", .ok 200, true, "T1", "T1", true⟩
        [] "https://a/b").2.countP isUpsertEvent = 1 :=
  (pending_url_upserts_exactly_once
    ⟨true, none, some "https://x/a.png", .ok 200, true, "T1", "T1", true⟩
    [] "https://a/b" (Or.inl (by decide)) (by decide)).1

/-- C3: assuming the success-time clock read (line 121) is not below the
attempt-time read (line 69), every store-writing event of an iteration has
`successful_download_datetime` present exactly when `successful_download = 1`,
and then not below `try_download_datetime`. -/
theorem written_records_satisfy_invariant (env : AttemptEnv) (s : Store)
    (u : String) (hmono : env.tryTime ≤ env.succTime) :
    ∀ e ∈ (processUrl env s u).2, eventWriteOk e := by
  intro e he
  by_cases hskip : selectSuccessful s u = some 1
  · rw [processUrl_skip env s u hskip] at he
    simp at he
  · have hinv := attemptRecord_invariant u env hmono
    by_cases hp : env.persistOk = true
    · rcases hres : selectSuccessful s u with _ | n
      · rw [processUrl_eq_insert env s u hres hp] at he
        rcases List.mem_append.mp he with h | h
        · exact eventWriteOk_of_not_upsert e (attempt_events_not_upsert u env e h)
        · simp at h
          subst h
          exact hinv
      · have hn : ¬ n = 1 := by
          intro hn1
          rw [hres, hn1] at hskip
          exact hskip rfl
        rw [processUrl_eq_update env s u n hres hn hp] at he
        rcases List.mem_append.mp he with h | h
        · exact eventWriteOk_of_not_upsert e (attempt_events_not_upsert u env e h)
        · simp at h
          subst h
          exact hinv
    · have hp2 : env.persistOk = false := by
        cases hb : env.persistOk
        · rfl
        · exact absurd hb hp
      rw [processUrl_eq_rollback env s u hskip hp2] at he
      rcases List.mem_append.mp he with h | h
      · exact eventWriteOk_of_not_upsert e (attempt_events_not_upsert u env e h)
      · simp at h
        rcases h with rfl | rfl <;> trivial

/-- C3 witness: the insert produced by a concrete successful attempt. -/
theorem written_records_satisfy_invariant_witness :
    eventWriteOk (Event.dbInsert ⟨"https://a/b", 1, "T1", some "T1"⟩) :=
  written_records_satisfy_invariant
    ⟨true, none, some "https://x/a.png", .ok 200, true, "T1", "T1", true⟩
    [] "https://a/b" (le_refl _)
    (Event.dbInsert ⟨"https://a/b", 1, "T1", some "T1"⟩) (by decide)

/-- C4: with a rendered page, on a `/videos/` URL the `og:image` meta lookup
comes before any `figure img` lookup, the latter running only when the
former is falsy; on a non-video URL only the `figure img` lookup runs; and
when the locator yields nothing the attempt fails and — for a URL being
processed with a working store — is recorded as a failed row rather than
aborting the iteration. -/
theorem locator_order_and_miss_recorded (url : String) (env : AttemptEnv)
    (s : Store) (hgoto : env.gotoOk = true) :
    (isVideoUrl url = true →
      (attemptLocate url env).2 =
        Event.render url :: Event.metaLookup url ::
          (if falsy env.ogImage = true then [Event.figLookup url] else [])) ∧
    (isVideoUrl url = false →
      (attemptLocate url env).2 = [Event.render url, Event.figLookup url]) ∧
    (falsy (attemptLocate url env).1 = true →
      (attemptDownload url env).1 = false ∧
      (attemptRecord url env).successful_download = 0 ∧
      ((selectSuccessful s url = none ∨ selectSuccessful s url = some 0) →
        env.persistOk = true →
        Store.get (processUrl env s url).1 url = some (attemptRecord url env))) := by
  refine ⟨?_, ?_, ?_⟩
  · intro hv
    cases hfo : falsy env.ogImage <;>
      simp [attemptLocate, hgoto, hv, hfo]
  · intro hv
    simp [attemptLocate, hgoto, hv, falsy]
  · intro hfal
    have hds := attemptDownload_false_of_falsy url env hfal
    refine ⟨hds, ?_, ?_⟩
    · rw [attemptRecord_fields, hds]
      simp
    · intro hres hok
      apply processUrl_get env s url _ hok
      rcases hres with h | h
      · exact Or.inl h
      · exact Or.inr ⟨0, h, by decide⟩

/-- C4 witness: a video URL with no `og:image`, so both lookups run. -/
theorem locator_order_and_miss_recorded_witness :
    (attemptLocate "https://r/videos/x/"
        ⟨true, none, none, .ok 200, true, "T1", "T1", true⟩).2 =
      [Event.render "https://r/videos/x/", Event.metaLookup "https://r/videos/x/",
        Event.figLookup "https://r/videos/x/"] := by
  rw [(locator_order_and_miss_recorded "https://r/videos/x/"
    ⟨true, none, none, .ok 200, true, "T1", "T1", true⟩ [] (by decide)).1 (by decide)]
  decide

/-- C8: when the persist of an attempted URL's outcome fails, the rollback
leaves the whole store — in particular that URL's record — unchanged, the
failure is reported, and the loop continues with the remaining URLs from the
unchanged store. -/
theorem persist_failure_rolls_back_and_continues (env : AttemptEnv) (s : Store)
    (u : String) (rest : List (String × AttemptEnv))
    (hns : ¬ selectSuccessful s u = some 1) (hfail : env.persistOk = false) :
    (processUrl env s u).1 = s ∧
    Event.rollback u ∈ (processUrl env s u).2 ∧
    Event.logDbError u ∈ (processUrl env s u).2 ∧
    processUrls ((u, env) :: rest) s =
      ((processUrls rest s).1, (processUrl env s u).2 ++ (processUrls rest s).2) := by
  have h := processUrl_eq_rollback env s u hns hfail
  refine ⟨by rw [h], by rw [h]; simp, by rw [h]; simp, ?_⟩
  rcases hr : processUrls rest s with ⟨s2, e2⟩
  simp [processUrls, h, hr]

/-- C8 witness: a failed-persist iteration over a concrete store. -/
theorem persist_failure_rolls_back_and_continues_witness :
    (processUrl ⟨true, none, some "https://x/a.png", .ok 200, true, "T1", "T1", false⟩
        [⟨"https://a/b", 0, "T0", none⟩] "https://a/b").1 =
      [⟨"https://a/b", 0, "T0", none⟩] :=
  (persist_failure_rolls_back_and_continues
    ⟨true, none, some "https://x/a.png", .ok 200, true, "T1", "T1", false⟩
    [⟨"https://a/b", 0, "T0", none⟩] "https://a/b" [] (by decide) (by decide)).1

end HeroScraper

namespace HeroScraper

/-- C5 counterexample: the extension is not derived from the resolved URL's
path but from the whole URL string, so a query string participates in the
splitext.  For `https://a/b.png?v=1` the string-derived extension `.png?v=1`
is overridden to `.jpg` while the path-derived `.png` would be kept; for
`https://a/b?v=2.png` the string yields `.png` (kept) while the path has no
extension and would default to `.jpg`. -/
theorem extension_from_path_counterexample :
    fileExtFor "https://a/b.png?v=1" = ".jpg" ∧
    fileExtFromPath "https://a/b.png?v=1" = ".png" ∧
    fileExtFor "https://a/b?v=2.png" = ".png" ∧
    fileExtFromPath "https://a/b?v=2.png" = ".jpg" := by
  decide

/-- C5 (amended): a located source beginning with `//` is resolved by
prefixing the page URL's scheme (the part before its first `:`) plus `:`;
the saved file's extension is derived by splitext from the whole resolved
image URL string (a query string participates in the derivation), defaults
to `.jpg` when absent, and is overridden to `.jpg` whenever its lowercase
form is not in `{.jpg, .jpeg, .png, .gif, .webp}`; in particular a `.bmp`
source yields `.jpg` and a `.PNG` source keeps its extension. -/
theorem resolution_and_extension_policy :
    (∀ url src, pyStartsWith "//" src = true →
      resolveSrc url src = schemeOf url ++ ":" ++ src) ∧
    (∀ s, splitextExt s = "" → fileExtFor s = ".jpg") ∧
    (∀ s, valid_extensions.contains (strLower (splitextExt s)) = false →
      fileExtFor s = ".jpg") ∧
    (∀ s, valid_extensions.contains (strLower (splitextExt s)) = true →
      fileExtFor s = splitextExt s) ∧
    fileExtFor "https://a/b.bmp" = ".jpg" ∧
    fileExtFor "https://a/b.PNG" = ".PNG" ∧
    resolveSrc "https://site.com/a/" "//cdn.example.com/x.png" =
      "https://cdn.example.com/x.png" := by
  refine ⟨?_, ?_, ?_, ?_, by decide, by decide, by decide⟩
  · intro url src h
    have h1 := pyStartsWith_slash src h
    unfold resolveSrc
    simp only [h1, h, if_true]
    rw [pySplit_headD]
    rfl
  · intro s h
    unfold fileExtFor
    rw [h]
    decide
  · intro s h
    by_cases h0 : splitextExt s = ""
    · unfold fileExtFor
      rw [h0]
      decide
    · rcases splitextExt_shape s with h0x | hdot
      · exact absurd h0x h0
      · simp only [fileExtFor]
        rw [if_neg h0, if_pos hdot, if_neg (by rw [h]; simp)]
  · intro s h
    have h0 : ¬ splitextExt s = "" := by
      intro h0
      rw [h0] at h
      revert h
      decide
    rcases splitextExt_shape s with h0x | hdot
    · exact absurd h0x h0
    · simp only [fileExtFor]
      rw [if_neg h0, if_pos hdot, if_pos h]

/-- C5 witness: protocol-relative resolution at a concrete source. -/
theorem resolution_and_extension_policy_witness :
    resolveSrc "https://s.com/p/" "//c.com/i.png" = "https://c.com/i.png" := by
  rw [resolution_and_extension_policy.1 "https://s.com/p/" "//c.com/i.png" (by decide)]
  decide

/-- C6 witness: the amended reference agrees at a concrete URL. -/
theorem sanitize_eq_amended_reference_witness :
    sanitize_filename "https://host/a//" = sanitizeRefAmended "https://host/a//" :=
  sanitize_eq_amended_reference "https://host/a//"

/-- C9 counterexample: the first column addition failing with an operational
error that is not "duplicate column" (`DbErr.otherOperational`, e.g. a locked
database) is silently ignored — startup succeeds and the run still processes
URLs, against the claim that only the duplicate-column error is ignored and
anything else is fatal. -/
theorem startup_ignores_nonduplicate_operational_error :
    StartupEnv.alter1 ⟨none, some .otherOperational, none, none, none, none⟩ =
      some DbErr.otherOperational ∧
    DbErr.otherOperational ≠ DbErr.duplicateColumn ∧
    schemaInit ⟨none, some .otherOperational, none, none, none, none⟩ = none ∧
    (mainRun ⟨none, some .otherOperational, none, none, none, none⟩
        [("https://a/b",
          ⟨true, none, some "https://x/a.png", .ok 200, true, "T1", "T1", true⟩)]
        []).2 ≠ [] := by
  decide

theorem catchOperational_of_ignorable (r : Option DbErr) (h : opIgnorable r) :
    catchOperational r = none := by
  cases hr : r with
  | none => rfl
  | some e => simp [catchOperational, h e hr]

theorem alterBlock2_of_ignorable (a u : Option DbErr) (ha : opIgnorable a)
    (hu : opIgnorable u) : alterBlock2 a u = none := by
  cases hx : a with
  | none =>
    simp only [alterBlock2]
    exact catchOperational_of_ignorable u hu
  | some e => simp [alterBlock2, ha e hx]

/-- C9 (amended): during startup each additive column change ignores any
error of the operational class (the `sqlite3.OperationalError` class, which
contains the duplicate-column error); a non-operational error reaching any
of the three `ALTER` attempts or the legacy-row `UPDATE`, and any error at
all from the `CREATE TABLE` or the final commit, is fatal, and a fatal
startup returns before processing any URL. -/
theorem startup_error_policy :
    (∀ senv : StartupEnv, senv.createResult = none → opIgnorable senv.alter1 →
      opIgnorable senv.alter2 → opIgnorable senv.updateLegacy →
      opIgnorable senv.alter3 → senv.commitResult = none →
      schemaInit senv = none) ∧
    (∀ senv : StartupEnv, ∀ e, senv.createResult = some e →
      schemaInit senv = some e) ∧
    (∀ senv : StartupEnv, senv.createResult = none →
      senv.alter1 = some DbErr.nonOperational →
      schemaInit senv = some DbErr.nonOperational) ∧
    (∀ senv : StartupEnv, senv.createResult = none → opIgnorable senv.alter1 →
      senv.alter2 = some DbErr.nonOperational →
      schemaInit senv = some DbErr.nonOperational) ∧
    (∀ senv : StartupEnv, senv.createResult = none → opIgnorable senv.alter1 →
      senv.alter2 = none → senv.updateLegacy = some DbErr.nonOperational →
      schemaInit senv = some DbErr.nonOperational) ∧
    (∀ senv : StartupEnv, senv.createResult = none → opIgnorable senv.alter1 →
      opIgnorable senv.alter2 → opIgnorable senv.updateLegacy →
      senv.alter3 = some DbErr.nonOperational →
      schemaInit senv = some DbErr.nonOperational) ∧
    (∀ senv : StartupEnv, ∀ e, senv.createResult = none →
      opIgnorable senv.alter1 → opIgnorable senv.alter2 →
      opIgnorable senv.updateLegacy → opIgnorable senv.alter3 →
      senv.commitResult = some e → schemaInit senv = some e) ∧
    (∀ senv urls s, schemaInit senv ≠ none → mainRun senv urls s = (s, [])) := by
  refine ⟨?_, ?_, ?_, ?_, ?_, ?_, ?_, ?_⟩
  · intro senv hc h1 h2 hu h3 hcm
    unfold schemaInit
    rw [hc, catchOperational_of_ignorable _ h1, alterBlock2_of_ignorable _ _ h2 hu,
      catchOperational_of_ignorable _ h3, hcm]
  · intro senv e hce
    unfold schemaInit
    rw [hce]
  · intro senv hc ha
    unfold schemaInit
    rw [hc, ha]
    rfl
  · intro senv hc h1 ha
    unfold schemaInit
    rw [hc, catchOperational_of_ignorable _ h1, ha]
    rfl
  · intro senv hc h1 ha hu
    unfold schemaInit
    rw [hc, catchOperational_of_ignorable _ h1, ha, hu]
    rfl
  · intro senv hc h1 h2 hu ha
    unfold schemaInit
    rw [hc, catchOperational_of_ignorable _ h1, alterBlock2_of_ignorable _ _ h2 hu, ha]
    rfl
  · intro senv e hc h1 h2 hu h3 hcm
    unfold schemaInit
    rw [hc, catchOperational_of_ignorable _ h1, alterBlock2_of_ignorable _ _ h2 hu,
      catchOperational_of_ignorable _ h3, hcm]
  · intro senv urls s h
    unfold mainRun
    cases hs : schemaInit senv with
    | none => exact absurd hs h
    | some e => rfl

/-- C9 witness: an all-clean startup with one duplicate-column error is not
fatal. -/
theorem startup_error_policy_witness :
    schemaInit ⟨none, some DbErr.duplicateColumn, none, none, none, none⟩ = none :=
  startup_error_policy.1 ⟨none, some DbErr.duplicateColumn, none, none, none, none⟩
    rfl (by intro e he; cases he; rfl) (by intro e he; cases he)
    (by intro e he; cases he) (by intro e he; cases he) rfl

/-- C10 counterexample: a 304 response is not 2xx, yet
`response.raise_for_status()` raises only for a status of 400 or higher, so
the code passes the check, opens/truncates the destination, writes the body
and returns `True` — against the claim that any non-2xx status returns
`False` with the file never opened. -/
theorem not_modified_status_still_writes_file :
    ¬ (200 ≤ 304 ∧ 304 ≤ 299) ∧
    download_image ⟨true, none, none, .ok 304, true, "T1", "T1", true⟩
        "https://c/i.png" "images/x.png" =
      (true, [Event.fetch "https://c/i.png", Event.fileOpen "images/x.png",
        Event.fileWrite "images/x.png"]) := by
  decide

/-- C10 (amended): when the GET ends in a transport error before the
response is read, or yields a status of 400 or higher (the statuses for
which `raise_for_status` raises), `download_image` returns `False` with only
the fetch performed: the destination file is never opened, created or
truncated, the status check preceding the `open`. -/
theorem bad_status_means_no_file_touched (env : AttemptEnv) (iu fp : String)
    (hbad : ∀ st, env.fetchResult = Except.ok st → 400 ≤ st) :
    download_image env iu fp = (false, [Event.fetch iu]) := by
  unfold download_image
  cases hr : env.fetchResult with
  | error t => rfl
  | ok st =>
    have hcond : 400 ≤ st := hbad st hr
    simp [hcond]

/-- C10 witness: a 404 response. -/
theorem bad_status_means_no_file_touched_witness :
    download_image ⟨true, none, none, .ok 404, true, "T1", "T1", true⟩
        "https://c/i.png" "images/x.png" =
      (false, [Event.fetch "https://c/i.png"]) :=
  bad_status_means_no_file_touched _ _ _ (by intro st h; cases h; decide)

end HeroScraper
